import Mathlib

/-!
Verification development for the n8n workflow error-handling enhancement tool
(`enhance_workflows.py`).  The script walks workflow JSON documents, merges
timeout/retry/header/response/redirect defaults into every HTTP Request node,
appends two fixed auxiliary error-handling nodes, and collects per-file
summaries behind a catch-all error boundary.

The embedding below models JSON values as an inductive type `JVal`, Python
dict operations as association-list operations with Python dict update
semantics (assignment to an existing key keeps its position, a new key is
appended), and Python exceptions as `Except String`.  Documents produced by
`json.load` are tree shaped (no aliasing), so in-place mutation of the source
is rendered as functional update.
-/

set_option autoImplicit false
set_option linter.unusedVariables false

namespace EnhanceWorkflows

/-- JSON values, as produced by Python `json.load`. -/
inductive JVal where
  | null : JVal
  | bool : Bool → JVal
  | num : Int → JVal
  | str : String → JVal
  | arr : List JVal → JVal
  | obj : List (String × JVal) → JVal
  deriving Repr

/-- Python truthiness of a JSON value (`if x:`). -/
def pyTruthy : JVal → Bool
  | .null => false
  | .bool b => b
  | .num n => n != 0
  | .str s => !s.isEmpty
  | .arr xs => !xs.isEmpty
  | .obj kvs => !kvs.isEmpty

/-- Lookup of a key in a Python dict (first occurrence; dicts from
`json.load` have unique keys). -/
def jLookup (k : String) : List (String × JVal) → Option JVal
  | [] => none
  | (k', v) :: rest => if k' == k then some v else jLookup k rest

/-- Python dict assignment `d[k] = v`: an existing key keeps its position,
a new key is appended at the end. -/
def jSet (kvs : List (String × JVal)) (k : String) (v : JVal) : List (String × JVal) :=
  match kvs with
  | [] => [(k, v)]
  | (k', v') :: rest => if k' == k then (k, v) :: rest else (k', v') :: jSet rest k v

/-- ASCII lower-casing of one character, as Python `str.lower` acts on the
ASCII inputs this tool sees. -/
def charLower (c : Char) : Char :=
  if 65 ≤ c.toNat ∧ c.toNat ≤ 90 then Char.ofNat (c.toNat + 32) else c

/-- Python `s.lower()` (ASCII). -/
def pyLower (s : String) : String :=
  String.mk (s.data.map charLower)

/-- Does the second list start with the first one? -/
def listStartsWith : List Char → List Char → Bool
  | [], _ => true
  | _ :: _, [] => false
  | p :: ps, c :: cs => p == c && listStartsWith ps cs

/-- Does the second list contain the first as a contiguous run? -/
def listHasSub (p : List Char) : List Char → Bool
  | [] => p.isEmpty
  | c :: rest => listStartsWith p (c :: rest) || listHasSub p rest

/-- Python substring test `pat in s`. -/
def pyIn (pat s : String) : Bool :=
  listHasSub pat.data s.data

/-- The effective URL string used by the classification functions: the
source computes `url.lower() if url else ""`, so a string is taken as is
(later lower-cased), a falsy non-string becomes `""`, and a truthy
non-string raises `AttributeError` (`none`). -/
def strOrFalsy (v : JVal) : Option String :=
  match v with
  | .str s => some s
  | v' => if pyTruthy v' then none else some ""

/-- The function `get_timeout_config` from the source: ordered keyword matching over the
lower-cased node name, then the lower-cased URL; first matching rule wins. -/
def get_timeout_config (node_name : String) (url : String) : Int :=
  let node_lower := pyLower node_name
  let url_lower := pyLower url
  -- AI/ML operations need longer timeouts
  if ["openai", "gpt", "ai", "ml"].any (fun keyword => pyIn keyword node_lower) then 30000
  -- Email sending operations
  else if ["email", "sendgrid", "mail"].any (fun keyword => pyIn keyword node_lower) then 15000
  -- Webhook/dashboard callbacks
  else if ["webhook", "callback", "dashboard"].any (fun keyword => pyIn keyword node_lower) then 15000
  -- Social media APIs
  else if ["twitter", "facebook", "linkedin", "instagram"].any (fun keyword => pyIn keyword url_lower) then 20000
  -- Slack notifications
  else if pyIn "slack" node_lower || pyIn "slack" url_lower then 10000
  -- E-commerce APIs (tend to be slower)
  else if ["shopify", "amazon", "ebay"].any (fun keyword => pyIn keyword url_lower) then 25000
  -- Default timeout
  else 15000

/-- The function `get_retry_config` from the source: ordered keyword matching over the
lower-cased node name only (the lower-cased URL is computed but unused). -/
def get_retry_config (node_name : String) (url : String) : JVal :=
  let node_lower := pyLower node_name
  let url_lower := pyLower url
  -- Critical operations get more retries
  if ["critical", "important", "sync"].any (fun keyword => pyIn keyword node_lower) then
    .obj [("enabled", .bool true), ("maxAttempts", .num 3), ("waitBetween", .num 2000)]
  -- AI operations get fewer retries due to cost
  else if ["openai", "gpt", "ai"].any (fun keyword => pyIn keyword node_lower) then
    .obj [("enabled", .bool true), ("maxAttempts", .num 2), ("waitBetween", .num 3000)]
  -- Notifications can have quick retries
  else if ["notification", "alert", "email"].any (fun keyword => pyIn keyword node_lower) then
    .obj [("enabled", .bool true), ("maxAttempts", .num 3), ("waitBetween", .num 1000)]
  -- Default retry config
  else
    .obj [("enabled", .bool true), ("maxAttempts", .num 3), ("waitBetween", .num 1500)]

/-- The four default header entries added by `get_enhanced_headers`, in the
order the source inserts them. -/
def headerDefaults : List (String × JVal) :=
  [("User-Agent", JVal.str "n8n-workflow/1.0"),
   ("Content-Type", JVal.str "application/json"),
   ("Accept", JVal.str "application/json, text/plain, */*"),
   ("Connection", JVal.str "keep-alive")]

/-- Add one header entry only when the key is absent (Python dict assignment
appends a new key at the end). -/
def addIfAbsent (kvs : List (String × JVal)) (k : String) (v : JVal) : List (String × JVal) :=
  if (jLookup k kvs).isSome then kvs else kvs ++ [(k, v)]

/-- The body of `get_enhanced_headers` on a dict: the four conditional
insertions, in source order. -/
def mergeHeaderDefaults (kvs : List (String × JVal)) : List (String × JVal) :=
  let h1 := addIfAbsent kvs "User-Agent" (JVal.str "n8n-workflow/1.0")
  let h2 := addIfAbsent h1 "Content-Type" (JVal.str "application/json")
  let h3 := addIfAbsent h2 "Accept" (JVal.str "application/json, text/plain, */*")
  let h4 := addIfAbsent h3 "Connection" (JVal.str "keep-alive")
  h4

/-- Is a list element equal (Python `==`) to the given header-key string? -/
def jvalEqStr (k : String) (x : JVal) : Bool :=
  match x with
  | .str s => s == k
  | _ => false

/-- The four default header keys. -/
def headerKeys : List String :=
  ["User-Agent", "Content-Type", "Accept", "Connection"]

/-- The function `get_enhanced_headers` from the source.  It computes
`headers = existing.copy() if existing else {}` followed by the four conditional insertions.  A falsy value
yields a fresh dict; a truthy dict is merged; a truthy list survives only
when all four keys already occur as elements (otherwise the first dict-style
assignment raises `TypeError`); any other truthy value has no `.copy` and
raises `AttributeError`.  The `url` argument is unused, as in the source. -/
def get_enhanced_headers (existing_headers : JVal) (url : JVal) : Except String JVal :=
  if pyTruthy existing_headers = false then
    .ok (.obj (mergeHeaderDefaults []))
  else
    match existing_headers with
    | .obj kvs => .ok (.obj (mergeHeaderDefaults kvs))
    | .arr xs =>
      if headerKeys.all (fun k => xs.any (jvalEqStr k)) then .ok (.arr xs)
      else .error "TypeError"
    | _ => .error "AttributeError"

/-- Lookup of a key in a node record (none when the value is not a dict). -/
def nodeLookup (v : JVal) (k : String) : Option JVal :=
  match v with
  | .obj kvs => jLookup k kvs
  | _ => none

/-- Follow a path of keys through nested objects. -/
def getPath (v : JVal) (ks : List String) : Option JVal :=
  ks.foldl (fun acc k => acc.bind (fun w => nodeLookup w k)) (some v)

/-- The eligibility test from `enhance_http_node`: the type tag is exactly
the HTTP Request node type (`node.get("type") != "..."` returns early
otherwise). -/
def typeIsHttp (node : JVal) : Bool :=
  match node with
  | .obj kvs =>
    match jLookup "type" kvs with
    | some (.str t) => t == "n8n-nodes-base.httpRequest"
    | _ => false
  | _ => false

/-- The fixed response options written by `enhance_http_node`.  Note the
value nests a second `response` key: `{"response": {"neverError": false}}`. -/
def responseConfig : JVal :=
  .obj [("response", .obj [("neverError", .bool false)])]

/-- The fixed redirect options written by `enhance_http_node`. -/
def redirectConfig : JVal :=
  .obj [("followRedirects", .bool true), ("maxRedirects", .num 3)]

/-- The options mapping after the four assignments in `enhance_http_node`:
`options["timeout"]`, `options["retry"]`, `options["response"]`,
`options["redirect"]`, in source order. -/
def enhancedOptions (okvs : List (String × JVal)) (nameS urlS : String) :
    List (String × JVal) :=
  jSet (jSet (jSet (jSet okvs
    "timeout" (.num (get_timeout_config nameS urlS)))
    "retry" (get_retry_config nameS urlS))
    "response" responseConfig)
    "redirect" redirectConfig

/-- The parameters mapping after the assignments to `parameters["headers"]`
and `parameters["options"]`, in source order. -/
def enhancedParams (pkvs : List (String × JVal)) (hdrs : JVal)
    (nameS urlS : String) (okvs : List (String × JVal)) : List (String × JVal) :=
  jSet (jSet pkvs "headers" hdrs) "options" (.obj (enhancedOptions okvs nameS urlS))

/-- The node after the assignments to `node["parameters"]` and
`node["onError"]`. -/
def enhancedNode (kvs pkvs : List (String × JVal)) (nameS urlS : String)
    (okvs : List (String × JVal)) (hdrs : JVal) : JVal :=
  .obj (jSet (jSet kvs
    "parameters" (.obj (enhancedParams pkvs hdrs nameS urlS okvs)))
    "onError" (.str "continueRegularOutput"))

/-- The function `enhance_http_node` from the source.  A non-dict node raises at
`node.get("type")`; a non-HTTP node is returned untouched with result
`False`; otherwise the parameter sub-mappings are read with dict defaults
and the timeout/retry/response/redirect/header configuration is merged in,
ending with `node["onError"] = "continueRegularOutput"` and result `True`.
Reads that need a dict (or a string name / string-or-falsy url) raise when
the stored value has the wrong type, exactly as the Python attribute and
item accesses do. -/
def enhance_http_node (node : JVal) : Except String (Bool × JVal) :=
  match node with
  | .obj kvs =>
    if typeIsHttp (.obj kvs) then
      -- parameters = node.get("parameters", default), must be a dict at
      -- parameters.get("url", default)
      match (jLookup "parameters" kvs).getD (.obj []) with
      | .obj pkvs =>
        -- node_name = node.get("name", "HTTP Request"), must be a string at
        -- node_name.lower() inside get_timeout_config
        match (jLookup "name" kvs).getD (.str "HTTP Request") with
        | .str nameS =>
          -- the value url.lower() if url else the empty string, inside get_timeout_config
          match strOrFalsy ((jLookup "url" pkvs).getD (.str "")) with
          | some urlS =>
            -- options = parameters.get("options", default), must be a dict at
            -- options["timeout"] = timeout
            match (jLookup "options" pkvs).getD (.obj []) with
            | .obj okvs =>
              match get_enhanced_headers ((jLookup "headers" pkvs).getD (.obj []))
                      ((jLookup "url" pkvs).getD (.str "")) with
              | .ok hdrs => .ok (true, enhancedNode kvs pkvs nameS urlS okvs hdrs)
              | .error e => .error e
            | _ => .error "TypeError"
          | none => .error "AttributeError"
        | _ => .error "AttributeError"
      | _ => .error "AttributeError"
    else .ok (false, .obj kvs)
  | _ => .error "AttributeError"

/-- The global error handler node appended by `add_error_handling_nodes`.
Its `jsCode` payload is an opaque inline script reproduced by the tool
verbatim and never parsed; it is abbreviated here to a constant tag since no
claim depends on its text. -/
def error_handler_node : JVal :=
  .obj [("parameters", .obj [("jsCode", .str "opaque script: Global Error Handler for HTTP Requests")]),
        ("id", .str "global-http-error-handler"),
        ("name", .str "Global HTTP Error Handler"),
        ("type", .str "n8n-nodes-base.code"),
        ("typeVersion", .num 2),
        ("position", .arr [.num 1800, .num 300])]

/-- The fallback data provider node appended by `add_error_handling_nodes`;
its `jsCode` payload is likewise an opaque constant blob. -/
def fallback_node : JVal :=
  .obj [("parameters", .obj [("jsCode", .str "opaque script: Fallback Data Provider")]),
        ("id", .str "fallback-data-provider"),
        ("name", .str "Fallback Data Provider"),
        ("type", .str "n8n-nodes-base.code"),
        ("typeVersion", .num 2),
        ("position", .arr [.num 2000, .num 300])]

/-- The function `add_error_handling_nodes` from the source: when the workflow contains
at least one HTTP Request node, produce the two fixed auxiliary nodes,
otherwise none.  In `enhance_workflow` this always runs on a workflow whose
`nodes` entry is a list of dicts, so only that case is needed here. -/
def add_error_handling_nodes (ns : List JVal) : List JVal :=
  if ns.any typeIsHttp then [error_handler_node, fallback_node] else []

/-- The per-node loop of `enhance_workflow`: enhance each node in order,
counting the enhanced ones; the first exception aborts the loop (and is
caught at the `enhance_workflow` boundary). -/
def enhanceNodes : List JVal → Except String (List JVal × Nat)
  | [] => .ok ([], 0)
  | n :: rest => do
    let (b, n') ← enhance_http_node n
    let (rest', c) ← enhanceNodes rest
    .ok (n' :: rest', (if b then 1 else 0) + c)

/-- The in-memory transformation performed by `enhance_workflow` on a loaded
document: enhance every node, then extend `workflow["nodes"]` with the
auxiliary nodes.  Returns the rewritten document together with
`http_nodes_enhanced` and `error_nodes_added`.  A missing `nodes` key raises
`KeyError` at `workflow["nodes"].extend(...)`; a non-list `nodes` value
raises while iterating it or at `.extend`; a non-dict document raises at
`workflow.get`. -/
def enhanceDoc (workflow : JVal) : Except String (JVal × Nat × Nat) :=
  match workflow with
  | .obj kvs =>
    match jLookup "nodes" kvs with
    | some (.arr ns) => do
      let (ns', cnt) ← enhanceNodes ns
      let errorNodes := add_error_handling_nodes ns'
      .ok (.obj (jSet kvs "nodes" (.arr (ns' ++ errorNodes))), cnt, errorNodes.length)
    | some _ => .error "TypeError"
    | none => .error "KeyError"
  | _ => .error "AttributeError"

/-- The per-file improvement summary collected by `enhance_workflow`: a
successful record (report detail lists abbreviated to the two counters the
claims mention) or the degenerate record carrying the file name and the error message. -/
inductive Summary where
  | success (file : String) (httpNodesEnhanced : Nat) (errorNodesAdded : Nat)
  | degenerate (file : String) (errMsg : String)
  deriving Repr, DecidableEq

/-- The try block of `enhance_workflow` from the source: load the file,
transform the document in memory, then persist the rewritten document back
to its path with `json.dump`.  `loaded` stands for the outcome of
opening/reading/parsing the file and `persist` for the outcome of
opening-for-write/serializing the given final document (any environment
failure of either step is an `Except.error` carrying its message).  The
result carries the two counters of the improvement summary. -/
def enhance_workflow_body (loaded : Except String JVal)
    (persist : JVal → Except String Unit) : Except String (Nat × Nat) := do
  let wf ← loaded
  let (wf2, cnt, aux) ← enhanceDoc wf
  let _u ← persist wf2
  pure (cnt, aux)

/-- The function `enhance_workflow` from the source, at its error boundary:
every exception raised by loading, by the enhancement itself, or by
persisting the rewritten document is caught and turned into the degenerate
summary carrying the file name and the message. -/
def enhance_workflow (fileName : String) (loaded : Except String JVal)
    (persist : JVal → Except String Unit) : Summary :=
  match enhance_workflow_body loaded persist with
  | .ok (cnt, aux) => .success fileName cnt aux
  | .error e => .degenerate fileName e

/-- The function `enhance_all_workflows` from the source: process every discovered file
in order (each file carrying its own load and persist outcomes), collecting
one summary per file; no exception escapes any single file. -/
def enhance_all_workflows
    (files : List (String × Except String JVal × (JVal → Except String Unit))) :
    List Summary :=
  files.map (fun p => enhance_workflow p.1 p.2.1 p.2.2)

/-! ### Association-list lemmas for the Python dict operations -/

theorem jLookup_jSet_self (kvs : List (String × JVal)) (k : String) (v : JVal) :
    jLookup k (jSet kvs k v) = some v := by
  induction kvs with
  | nil => simp [jLookup, jSet]
  | cons p rest ih =>
    by_cases h : p.1 = k
    · simp [jLookup, jSet, h]
    · simp [jLookup, jSet, h, ih]

theorem jLookup_jSet_ne (kvs : List (String × JVal)) (k k' : String) (v : JVal)
    (h : k' ≠ k) : jLookup k' (jSet kvs k v) = jLookup k' kvs := by
  induction kvs with
  | nil => simp [jLookup, jSet, h, Ne.symm h]
  | cons p rest ih =>
    by_cases hp : p.1 = k
    · simp [jLookup, jSet, hp, h, Ne.symm h]
    · by_cases hp' : p.1 = k'
      · simp [jLookup, jSet, hp, hp', h, Ne.symm h]
      · simp [jLookup, jSet, hp, hp', ih]

theorem jLookup_append_of_some (k : String) (xs ys : List (String × JVal)) (v : JVal)
    (h : jLookup k xs = some v) : jLookup k (xs ++ ys) = some v := by
  induction xs with
  | nil => simp [jLookup] at h
  | cons p rest ih =>
    by_cases hp : p.1 = k
    · simp [jLookup, hp] at h ⊢; exact h
    · simp [jLookup, hp] at h ⊢; exact ih h

theorem jLookup_append_of_none (k : String) (xs ys : List (String × JVal))
    (h : jLookup k xs = none) : jLookup k (xs ++ ys) = jLookup k ys := by
  induction xs with
  | nil => simp
  | cons p rest ih =>
    by_cases hp : p.1 = k
    · simp [jLookup, hp] at h
    · simp [jLookup, hp] at h ⊢; exact ih h

theorem jLookup_addIfAbsent_self (kvs : List (String × JVal)) (k : String) (v : JVal) :
    jLookup k (addIfAbsent kvs k v) = some ((jLookup k kvs).getD v) := by
  unfold addIfAbsent
  cases h : jLookup k kvs with
  | some w => simp [h]
  | none =>
    simp [h]
    rw [jLookup_append_of_none k kvs _ h]
    simp [jLookup]

theorem jLookup_addIfAbsent_ne (kvs : List (String × JVal)) (k k' : String) (v : JVal)
    (h : k' ≠ k) : jLookup k' (addIfAbsent kvs k v) = jLookup k' kvs := by
  unfold addIfAbsent
  split
  · rfl
  · cases h' : jLookup k' kvs with
    | some w => exact jLookup_append_of_some _ _ _ _ h'
    | none =>
      rw [jLookup_append_of_none _ _ _ h']
      simp [jLookup, h, Ne.symm h]

theorem jLookup_addIfAbsent_of_some (kvs : List (String × JVal)) (k k2 : String)
    (v v2 : JVal) (h : jLookup k kvs = some v) :
    jLookup k (addIfAbsent kvs k2 v2) = some v := by
  unfold addIfAbsent
  split
  · exact h
  · exact jLookup_append_of_some _ _ _ _ h

/-- Every key already present in the headers keeps its caller-supplied value
through the four-step default merge. -/
theorem mergeHeaderDefaults_preserves (kvs : List (String × JVal)) (k : String) (v : JVal)
    (h : jLookup k kvs = some v) : jLookup k (mergeHeaderDefaults kvs) = some v := by
  unfold mergeHeaderDefaults
  exact jLookup_addIfAbsent_of_some _ _ _ _ _
    (jLookup_addIfAbsent_of_some _ _ _ _ _
      (jLookup_addIfAbsent_of_some _ _ _ _ _
        (jLookup_addIfAbsent_of_some _ _ _ _ _ h)))

/-- After the merge, each of the four default keys maps to the caller value
when one was present and to the default otherwise. -/
theorem mergeHeaderDefaults_spec (kvs : List (String × JVal)) :
    ∀ p ∈ headerDefaults,
      jLookup p.1 (mergeHeaderDefaults kvs) = some ((jLookup p.1 kvs).getD p.2) := by
  intro p hp
  simp only [headerDefaults, List.mem_cons, List.not_mem_nil, or_false] at hp
  rcases hp with h | h | h | h <;> subst h <;> unfold mergeHeaderDefaults
  · rw [jLookup_addIfAbsent_ne _ _ _ _ (by decide),
      jLookup_addIfAbsent_ne _ _ _ _ (by decide),
      jLookup_addIfAbsent_ne _ _ _ _ (by decide),
      jLookup_addIfAbsent_self]
  · rw [jLookup_addIfAbsent_ne _ _ _ _ (by decide),
      jLookup_addIfAbsent_ne _ _ _ _ (by decide),
      jLookup_addIfAbsent_self]
    cases h' : jLookup "Content-Type" kvs with
    | some w => rw [jLookup_addIfAbsent_of_some _ _ _ _ _ h']
    | none => rw [jLookup_addIfAbsent_ne _ _ _ _ (by decide), h']
  · rw [jLookup_addIfAbsent_ne _ _ _ _ (by decide), jLookup_addIfAbsent_self]
    cases h' : jLookup "Accept" kvs with
    | some w =>
      rw [jLookup_addIfAbsent_of_some _ _ _ _ _
        (jLookup_addIfAbsent_of_some _ _ _ _ _ h')]
    | none =>
      rw [jLookup_addIfAbsent_ne _ _ _ _ (by decide),
        jLookup_addIfAbsent_ne _ _ _ _ (by decide), h']
  · rw [jLookup_addIfAbsent_self]
    cases h' : jLookup "Connection" kvs with
    | some w =>
      rw [jLookup_addIfAbsent_of_some _ _ _ _ _
        (jLookup_addIfAbsent_of_some _ _ _ _ _
          (jLookup_addIfAbsent_of_some _ _ _ _ _ h'))]
    | none =>
      rw [jLookup_addIfAbsent_ne _ _ _ _ (by decide),
        jLookup_addIfAbsent_ne _ _ _ _ (by decide),
        jLookup_addIfAbsent_ne _ _ _ _ (by decide), h']

/-- On a dict, `get_enhanced_headers` always succeeds with the merged dict
(the falsy branch for the empty dict coincides with the merge of the empty
dict). -/
theorem get_enhanced_headers_obj (kvs : List (String × JVal)) (u : JVal) :
    get_enhanced_headers (.obj kvs) u = .ok (.obj (mergeHeaderDefaults kvs)) := by
  cases kvs with
  | nil => simp [get_enhanced_headers, pyTruthy]
  | cons p rest => simp [get_enhanced_headers, pyTruthy]

/-! ### Shape lemmas for `enhance_http_node` -/

/-- A dict node of non-HTTP type is passed through untouched with result
`false`. -/
theorem enhance_not_http (kvs : List (String × JVal))
    (h : typeIsHttp (.obj kvs) = false) :
    enhance_http_node (.obj kvs) = .ok (false, .obj kvs) := by
  simp [enhance_http_node, h]

/-- Introduction direction: the branch conditions force the success case. -/
theorem enhance_ok_true_intro {kvs pkvs : List (String × JVal)} {nameS urlS : String}
    {okvs : List (String × JVal)} {hdrs : JVal}
    (h1 : typeIsHttp (.obj kvs) = true)
    (h2 : (jLookup "parameters" kvs).getD (.obj []) = .obj pkvs)
    (h3 : (jLookup "name" kvs).getD (.str "HTTP Request") = .str nameS)
    (h4 : strOrFalsy ((jLookup "url" pkvs).getD (.str "")) = some urlS)
    (h5 : (jLookup "options" pkvs).getD (.obj []) = .obj okvs)
    (h6 : get_enhanced_headers ((jLookup "headers" pkvs).getD (.obj []))
      ((jLookup "url" pkvs).getD (.str "")) = .ok hdrs) :
    enhance_http_node (.obj kvs) =
      .ok (true, enhancedNode kvs pkvs nameS urlS okvs hdrs) := by
  simp only [enhance_http_node, h1, if_true, h2, h3, h4, h5, h6]

/-- A successful enhancing run exposes the structure of its input and
output. -/
theorem enhance_ok_true_elim {node n' : JVal}
    (h : enhance_http_node node = .ok (true, n')) :
    ∃ kvs pkvs nameS urlS okvs hdrs,
      node = .obj kvs ∧
      typeIsHttp (.obj kvs) = true ∧
      (jLookup "parameters" kvs).getD (.obj []) = .obj pkvs ∧
      (jLookup "name" kvs).getD (.str "HTTP Request") = .str nameS ∧
      strOrFalsy ((jLookup "url" pkvs).getD (.str "")) = some urlS ∧
      (jLookup "options" pkvs).getD (.obj []) = .obj okvs ∧
      get_enhanced_headers ((jLookup "headers" pkvs).getD (.obj []))
        ((jLookup "url" pkvs).getD (.str "")) = .ok hdrs ∧
      n' = enhancedNode kvs pkvs nameS urlS okvs hdrs := by
  cases node with
  | obj kvs =>
    by_cases ht : typeIsHttp (.obj kvs) = true
    · cases hp : (jLookup "parameters" kvs).getD (.obj []) with
      | obj pkvs =>
        cases hn : (jLookup "name" kvs).getD (.str "HTTP Request") with
        | str nameS =>
          cases hu : strOrFalsy ((jLookup "url" pkvs).getD (.str "")) with
          | some urlS =>
            cases ho : (jLookup "options" pkvs).getD (.obj []) with
            | obj okvs =>
              cases hh : get_enhanced_headers ((jLookup "headers" pkvs).getD (.obj []))
                  ((jLookup "url" pkvs).getD (.str "")) with
              | ok hdrs =>
                rw [enhance_ok_true_intro ht hp hn hu ho hh] at h
                refine ⟨kvs, pkvs, nameS, urlS, okvs, hdrs, rfl, ht, hp, hn, hu, ho, hh, ?_⟩
                have := (Except.ok.inj h)
                exact (Prod.mk.injEq _ _ _ _ ▸ this).2.symm
              | error e => simp [enhance_http_node, ht, hp, hn, hu, ho, hh] at h
            | null => simp [enhance_http_node, ht, hp, hn, hu, ho] at h
            | bool b => simp [enhance_http_node, ht, hp, hn, hu, ho] at h
            | num n => simp [enhance_http_node, ht, hp, hn, hu, ho] at h
            | str s => simp [enhance_http_node, ht, hp, hn, hu, ho] at h
            | arr xs => simp [enhance_http_node, ht, hp, hn, hu, ho] at h
          | none => simp [enhance_http_node, ht, hp, hn, hu] at h
        | null => simp [enhance_http_node, ht, hp, hn] at h
        | bool b => simp [enhance_http_node, ht, hp, hn] at h
        | num n => simp [enhance_http_node, ht, hp, hn] at h
        | arr xs => simp [enhance_http_node, ht, hp, hn] at h
        | obj okvs2 => simp [enhance_http_node, ht, hp, hn] at h
      | null => simp [enhance_http_node, ht, hp] at h
      | bool b => simp [enhance_http_node, ht, hp] at h
      | num n => simp [enhance_http_node, ht, hp] at h
      | str s => simp [enhance_http_node, ht, hp] at h
      | arr xs => simp [enhance_http_node, ht, hp] at h
    · rw [enhance_not_http kvs (by simpa using ht)] at h
      simp at h
  | null => simp [enhance_http_node] at h
  | bool b => simp [enhance_http_node] at h
  | num n => simp [enhance_http_node] at h
  | str s => simp [enhance_http_node] at h
  | arr xs => simp [enhance_http_node] at h

/-- A node reported not applicable is returned untouched, and is a dict of
non-HTTP type. -/
theorem enhance_ok_false_elim {node n' : JVal}
    (h : enhance_http_node node = .ok (false, n')) :
    n' = node ∧ typeIsHttp node = false ∧ ∃ kvs, node = .obj kvs := by
  cases node with
  | obj kvs =>
    by_cases ht : typeIsHttp (.obj kvs) = true
    · cases hp : (jLookup "parameters" kvs).getD (.obj []) with
      | obj pkvs =>
        cases hn : (jLookup "name" kvs).getD (.str "HTTP Request") with
        | str nameS =>
          cases hu : strOrFalsy ((jLookup "url" pkvs).getD (.str "")) with
          | some urlS =>
            cases ho : (jLookup "options" pkvs).getD (.obj []) with
            | obj okvs =>
              cases hh : get_enhanced_headers ((jLookup "headers" pkvs).getD (.obj []))
                  ((jLookup "url" pkvs).getD (.str "")) with
              | ok hdrs =>
                rw [enhance_ok_true_intro ht hp hn hu ho hh] at h
                simp at h
              | error e => simp [enhance_http_node, ht, hp, hn, hu, ho, hh] at h
            | null => simp [enhance_http_node, ht, hp, hn, hu, ho] at h
            | bool b => simp [enhance_http_node, ht, hp, hn, hu, ho] at h
            | num n => simp [enhance_http_node, ht, hp, hn, hu, ho] at h
            | str s => simp [enhance_http_node, ht, hp, hn, hu, ho] at h
            | arr xs => simp [enhance_http_node, ht, hp, hn, hu, ho] at h
          | none => simp [enhance_http_node, ht, hp, hn, hu] at h
        | null => simp [enhance_http_node, ht, hp, hn] at h
        | bool b => simp [enhance_http_node, ht, hp, hn] at h
        | num n => simp [enhance_http_node, ht, hp, hn] at h
        | arr xs => simp [enhance_http_node, ht, hp, hn] at h
        | obj okvs2 => simp [enhance_http_node, ht, hp, hn] at h
      | null => simp [enhance_http_node, ht, hp] at h
      | bool b => simp [enhance_http_node, ht, hp] at h
      | num n => simp [enhance_http_node, ht, hp] at h
      | str s => simp [enhance_http_node, ht, hp] at h
      | arr xs => simp [enhance_http_node, ht, hp] at h
    · have hf : typeIsHttp (.obj kvs) = false := by simpa using ht
      rw [enhance_not_http kvs hf] at h
      have := (Except.ok.inj h)
      exact ⟨(Prod.mk.injEq _ _ _ _ ▸ this).2.symm, hf, kvs, rfl⟩
  | null => simp [enhance_http_node] at h
  | bool b => simp [enhance_http_node] at h
  | num n => simp [enhance_http_node] at h
  | str s => simp [enhance_http_node] at h
  | arr xs => simp [enhance_http_node] at h

/-! ### Re-run lemmas: a node that survived one enhancement survives another -/

/-- Any headers value produced by a successful `get_enhanced_headers` run is
accepted again by a second run. -/
theorem get_enhanced_headers_ok_again {x u h : JVal}
    (hk : get_enhanced_headers x u = .ok h) (u2 : JVal) :
    ∃ h2, get_enhanced_headers h u2 = .ok h2 := by
  unfold get_enhanced_headers at hk
  split at hk
  · exact ⟨_, (Except.ok.inj hk) ▸ get_enhanced_headers_obj _ _⟩
  · split at hk
    · exact ⟨_, (Except.ok.inj hk) ▸ get_enhanced_headers_obj _ _⟩
    · rename_i xs hnp
      split at hk
      · rename_i hall
        have hx : h = .arr xs := (Except.ok.inj hk).symm
        subst hx
        cases xs with
        | nil => simp [headerKeys] at hall
        | cons y ys =>
          refine ⟨.arr (y :: ys), ?_⟩
          have htr : pyTruthy (JVal.arr (y :: ys)) = true := by simp [pyTruthy]
          simp only [get_enhanced_headers, htr]
          simp
          intro x hx hxy
          have hall2 : ∀ z ∈ headerKeys,
              jvalEqStr z y = true ∨ ∃ w ∈ ys, jvalEqStr z w = true := by
            simpa using hall
          rcases hall2 x hx with h1 | h2
          · rw [hxy] at h1
            simp at h1
          · exact h2
      · exact absurd hk (by simp)
    · exact absurd hk (by simp)

/-- Enhancement does not change the type tag of the node. -/
theorem enhance_preserves_type {node n' : JVal} {b : Bool}
    (h : enhance_http_node node = .ok (b, n')) :
    typeIsHttp n' = typeIsHttp node := by
  cases b with
  | false => rw [(enhance_ok_false_elim h).1]
  | true =>
    obtain ⟨kvs, pkvs, nameS, urlS, okvs, hdrs, hnode, ht, _, _, _, _, _, hn'⟩ :=
      enhance_ok_true_elim h
    subst hnode hn'
    simp only [enhancedNode, typeIsHttp]
    rw [jLookup_jSet_ne _ _ _ _ (by decide), jLookup_jSet_ne _ _ _ _ (by decide)]

/-- A node that one run enhanced successfully is enhanced successfully again
by a second run (the inputs the second run reads are the unchanged name/url
plus well-shaped mappings written by the first run). -/
theorem enhance_again {node n' : JVal} {b : Bool}
    (h : enhance_http_node node = .ok (b, n')) :
    ∃ b2 n2, enhance_http_node n' = .ok (b2, n2) := by
  cases b with
  | false =>
    obtain ⟨hid, hf, kvs, hk⟩ := enhance_ok_false_elim h
    subst hid hk
    exact ⟨false, .obj kvs, enhance_not_http kvs hf⟩
  | true =>
    obtain ⟨kvs, pkvs, nameS, urlS, okvs, hdrs, hnode, ht, hp, hn, hu, ho, hh, hn'⟩ :=
      enhance_ok_true_elim h
    subst hnode hn'
    -- the second run reads the same type, name and url, the freshly written
    -- options dict, and the freshly written headers value
    have ht2 : typeIsHttp (.obj (jSet (jSet kvs
        "parameters" (.obj (enhancedParams pkvs hdrs nameS urlS okvs)))
        "onError" (.str "continueRegularOutput"))) = true := by
      simp only [typeIsHttp]
      rw [jLookup_jSet_ne _ _ _ _ (by decide), jLookup_jSet_ne _ _ _ _ (by decide)]
      simp only [typeIsHttp] at ht
      exact ht
    have hp2 : (jLookup "parameters" (jSet (jSet kvs
        "parameters" (.obj (enhancedParams pkvs hdrs nameS urlS okvs)))
        "onError" (.str "continueRegularOutput"))).getD (.obj [])
        = .obj (enhancedParams pkvs hdrs nameS urlS okvs) := by
      rw [jLookup_jSet_ne _ _ _ _ (by decide), jLookup_jSet_self]
      rfl
    have hn2 : (jLookup "name" (jSet (jSet kvs
        "parameters" (.obj (enhancedParams pkvs hdrs nameS urlS okvs)))
        "onError" (.str "continueRegularOutput"))).getD (.str "HTTP Request")
        = .str nameS := by
      rw [jLookup_jSet_ne _ _ _ _ (by decide), jLookup_jSet_ne _ _ _ _ (by decide)]
      exact hn
    have hurl : jLookup "url" (enhancedParams pkvs hdrs nameS urlS okvs)
        = jLookup "url" pkvs := by
      unfold enhancedParams
      rw [jLookup_jSet_ne _ _ _ _ (by decide), jLookup_jSet_ne _ _ _ _ (by decide)]
    have hu2 : strOrFalsy ((jLookup "url"
        (enhancedParams pkvs hdrs nameS urlS okvs)).getD (.str "")) = some urlS := by
      rw [hurl]; exact hu
    have ho2 : (jLookup "options"
        (enhancedParams pkvs hdrs nameS urlS okvs)).getD (.obj [])
        = .obj (enhancedOptions okvs nameS urlS) := by
      unfold enhancedParams
      rw [jLookup_jSet_self]
      rfl
    have hhdr : jLookup "headers" (enhancedParams pkvs hdrs nameS urlS okvs)
        = some hdrs := by
      unfold enhancedParams
      rw [jLookup_jSet_ne _ _ _ _ (by decide), jLookup_jSet_self]
    obtain ⟨h2, hh2⟩ := get_enhanced_headers_ok_again hh
      ((jLookup "url" (enhancedParams pkvs hdrs nameS urlS okvs)).getD (.str ""))
    have hh2' : get_enhanced_headers ((jLookup "headers"
        (enhancedParams pkvs hdrs nameS urlS okvs)).getD (.obj []))
        ((jLookup "url" (enhancedParams pkvs hdrs nameS urlS okvs)).getD (.str ""))
        = .ok h2 := by
      rw [hhdr]
      exact hh2
    exact ⟨true, _, enhance_ok_true_intro ht2 hp2 hn2 hu2 ho2 hh2'⟩

/-! ### Lemmas about the per-document node loop -/

theorem enhanceNodes_append {xs ys xs' ys' : List JVal} {cx cy : Nat}
    (hx : enhanceNodes xs = .ok (xs', cx)) (hy : enhanceNodes ys = .ok (ys', cy)) :
    enhanceNodes (xs ++ ys) = .ok (xs' ++ ys', cx + cy) := by
  induction xs generalizing xs' cx with
  | nil =>
    simp [enhanceNodes] at hx
    simp [hx.1, hx.2, hy]
  | cons n rest ih =>
    simp only [enhanceNodes, bind, Except.bind] at hx
    cases he : enhance_http_node n with
    | error e => rw [he] at hx; simp at hx
    | ok p =>
      rw [he] at hx
      cases hr : enhanceNodes rest with
      | error e => rw [hr] at hx; simp at hx
      | ok q =>
        rw [hr] at hx
        simp only [Except.ok.injEq, Prod.mk.injEq] at hx
        obtain ⟨hl, hc⟩ := hx
        rw [List.cons_append]
        simp only [enhanceNodes, bind, Except.bind, he, ih hr,
          Except.ok.injEq, Prod.mk.injEq]
        constructor
        · rw [← hl, List.cons_append]
        · omega

theorem enhanceNodes_length_any {ms ms' : List JVal} {c : Nat}
    (h : enhanceNodes ms = .ok (ms', c)) :
    ms'.length = ms.length ∧ ms'.any typeIsHttp = ms.any typeIsHttp := by
  induction ms generalizing ms' c with
  | nil =>
    simp [enhanceNodes] at h
    simp [h.1]
  | cons n rest ih =>
    simp only [enhanceNodes, bind, Except.bind] at h
    cases he : enhance_http_node n with
    | error e => rw [he] at h; simp at h
    | ok p =>
      rw [he] at h
      cases hr : enhanceNodes rest with
      | error e => rw [hr] at h; simp at h
      | ok q =>
        rw [hr] at h
        simp only [Except.ok.injEq] at h
        have hl : p.2 :: q.1 = ms' := (Prod.mk.injEq _ _ _ _ ▸ h).1
        obtain ⟨ihl, iha⟩ := ih hr
        have hty : typeIsHttp p.2 = typeIsHttp n := by
          have : enhance_http_node n = .ok (p.1, p.2) := by rw [he]
          exact enhance_preserves_type this
        subst hl
        simp [ihl, iha, hty]

theorem enhanceNodes_again {ms ms' : List JVal} {c : Nat}
    (h : enhanceNodes ms = .ok (ms', c)) :
    ∃ ms'' c', enhanceNodes ms' = .ok (ms'', c') := by
  induction ms generalizing ms' c with
  | nil =>
    simp [enhanceNodes] at h
    exact ⟨[], 0, by simp [h.1, enhanceNodes]⟩
  | cons n rest ih =>
    simp only [enhanceNodes, bind, Except.bind] at h
    cases he : enhance_http_node n with
    | error e => rw [he] at h; simp at h
    | ok p =>
      rw [he] at h
      cases hr : enhanceNodes rest with
      | error e => rw [hr] at h; simp at h
      | ok q =>
        rw [hr] at h
        simp only [Except.ok.injEq] at h
        have hl : p.2 :: q.1 = ms' := (Prod.mk.injEq _ _ _ _ ▸ h).1
        obtain ⟨rest'', c'', hrest⟩ := ih hr
        have hagain : ∃ b2 n2, enhance_http_node p.2 = .ok (b2, n2) := by
          have hp : enhance_http_node n = .ok (p.1, p.2) := by rw [he]
          exact enhance_again hp
        obtain ⟨b2, n2, hb⟩ := hagain
        refine ⟨n2 :: rest'', (if b2 then 1 else 0) + c'', ?_⟩
        rw [← hl]
        simp [enhanceNodes, bind, Except.bind, hb, hrest]

/-- The auxiliary nodes are not HTTP Request nodes. -/
theorem aux_not_http :
    typeIsHttp error_handler_node = false ∧ typeIsHttp fallback_node = false := by
  constructor <;> rfl

/-- The second run passes the two appended auxiliary nodes through
unchanged. -/
theorem enhanceNodes_aux_pair :
    enhanceNodes [error_handler_node, fallback_node] =
      .ok ([error_handler_node, fallback_node], 0) := by
  rfl

/-- The nodes list of a workflow document. -/
def nodesOf (wf : JVal) : List JVal :=
  match wf with
  | .obj kvs =>
    match jLookup "nodes" kvs with
    | some (.arr ns) => ns
    | _ => []
  | _ => []

/-- Does the node carry the given id string? -/
def hasId (n : JVal) (idS : String) : Bool :=
  match nodeLookup n "id" with
  | some (.str s) => s == idS
  | _ => false

/-- How many nodes in the list carry the given id string? -/
def countId (idS : String) (ns : List JVal) : Nat :=
  ns.countP (fun n => hasId n idS)

/-- Structure of a successful `enhanceDoc` run. -/
theorem enhanceDoc_elim {wf wf' : JVal} {cnt aux : Nat}
    (h : enhanceDoc wf = .ok (wf', cnt, aux)) :
    ∃ kvs ns ns',
      wf = .obj kvs ∧
      jLookup "nodes" kvs = some (.arr ns) ∧
      enhanceNodes ns = .ok (ns', cnt) ∧
      wf' = .obj (jSet kvs "nodes" (.arr (ns' ++ add_error_handling_nodes ns'))) ∧
      aux = (add_error_handling_nodes ns').length := by
  cases wf with
  | obj kvs =>
    simp only [enhanceDoc] at h
    cases hn : jLookup "nodes" kvs with
    | none => rw [hn] at h; simp at h
    | some v =>
      rw [hn] at h
      cases v with
      | arr ns =>
        simp only [bind, Except.bind] at h
        cases hr : enhanceNodes ns with
        | error e => rw [hr] at h; simp at h
        | ok q =>
          obtain ⟨ns', c⟩ := q
          rw [hr] at h
          simp only [Except.ok.injEq, Prod.mk.injEq] at h
          obtain ⟨hwf, hcnt, haux⟩ := h
          exact ⟨kvs, ns, ns', rfl, hn, by rw [hr, hcnt], hwf.symm, haux.symm⟩
      | null => simp at h
      | bool b => simp at h
      | num n => simp at h
      | str s => simp at h
      | obj kvs2 => simp at h
  | null => simp [enhanceDoc] at h
  | bool b => simp [enhanceDoc] at h
  | num n => simp [enhanceDoc] at h
  | str s => simp [enhanceDoc] at h
  | arr xs => simp [enhanceDoc] at h

/-! ### Specification-side rule tables

The specification describes timeout and retry selection as first-match
evaluation of a fixed ordered rule table.  The tables below transcribe the
rules in the order the specification states them, to be compared with the
source functions. -/

/-- First-match evaluation of an ordered rule table over the lower-cased
name and url. -/
def applyFirstRule (rules : List ((String → String → Bool) × Int)) (dflt : Int)
    (nl ul : String) : Int :=
  match rules with
  | [] => dflt
  | (p, v) :: rest => if p nl ul then v else applyFirstRule rest dflt nl ul

/-- The timeout rule table in the priority order the specification states:
AI/ML name keywords, then email/mail name keywords, then
webhook/callback/dashboard name keywords, then social-media URL keywords,
then slack in name or URL, then e-commerce URL keywords. -/
def timeoutRuleTable : List ((String → String → Bool) × Int) :=
  [(fun nl _ => ["openai", "gpt", "ai", "ml"].any (fun k => pyIn k nl), 30000),
   (fun nl _ => ["email", "sendgrid", "mail"].any (fun k => pyIn k nl), 15000),
   (fun nl _ => ["webhook", "callback", "dashboard"].any (fun k => pyIn k nl), 15000),
   (fun _ ul => ["twitter", "facebook", "linkedin", "instagram"].any (fun k => pyIn k ul), 20000),
   (fun nl ul => pyIn "slack" nl || pyIn "slack" ul, 10000),
   (fun _ ul => ["shopify", "amazon", "ebay"].any (fun k => pyIn k ul), 25000)]

/-- Timeout selection as the specification words it: the first matching
rule of the fixed table, with default 15000. -/
def timeoutBySpecTable (node_name url : String) : Int :=
  applyFirstRule timeoutRuleTable 15000 (pyLower node_name) (pyLower url)

/-- First-match evaluation of an ordered retry rule table over the
lower-cased name only. -/
def applyFirstRetryRule (rules : List ((String → Bool) × JVal)) (dflt : JVal)
    (nl : String) : JVal :=
  match rules with
  | [] => dflt
  | (p, v) :: rest => if p nl then v else applyFirstRetryRule rest dflt nl

/-- The retry rule table in the priority order the specification states:
critical/important/sync, then AI keywords, then notification/alert/email. -/
def retryRuleTable : List ((String → Bool) × JVal) :=
  [(fun nl => ["critical", "important", "sync"].any (fun k => pyIn k nl),
    .obj [("enabled", .bool true), ("maxAttempts", .num 3), ("waitBetween", .num 2000)]),
   (fun nl => ["openai", "gpt", "ai"].any (fun k => pyIn k nl),
    .obj [("enabled", .bool true), ("maxAttempts", .num 2), ("waitBetween", .num 3000)]),
   (fun nl => ["notification", "alert", "email"].any (fun k => pyIn k nl),
    .obj [("enabled", .bool true), ("maxAttempts", .num 3), ("waitBetween", .num 1000)])]

/-- Retry selection as the specification words it: the first matching rule
of the fixed table over the lower-cased node name, with the stated
default. -/
def retryBySpecTable (node_name : String) : JVal :=
  applyFirstRetryRule retryRuleTable
    (.obj [("enabled", .bool true), ("maxAttempts", .num 3), ("waitBetween", .num 1500)])
    (pyLower node_name)

/-! ### Claim C1 -/

/-- C1: for every HTTP-call node the selected timeout is the first matching
rule of the fixed ordered table (AI/ML 30000, email/mail 15000,
webhook/callback/dashboard 15000, social-media URL 20000, slack 10000,
e-commerce URL 25000, default 15000); in particular a node named
"Fetch OpenAI Completion" with the OpenAI URL selects 30000. -/
theorem C1_timeout_first_match :
    (∀ node_name url,
      get_timeout_config node_name url = timeoutBySpecTable node_name url) ∧
    get_timeout_config "Fetch OpenAI Completion" "https://api.openai.com/v1/..." = 30000 := by
  constructor
  · intro node_name url
    rfl
  · rfl

/-! ### Claim C2 -/

/-- C2: the retry policy is its own independent first-match over the
lower-cased node name (critical/important/sync giving 3 attempts with
2000ms, then AI keywords giving 2 attempts with 3000ms, then
notification/alert/email giving 3 attempts with 1000ms, else 3 attempts
with 1500ms); a node named "critical-openai-sync" selects the critical
branch, not the AI branch. -/
theorem C2_retry_first_match :
    (∀ node_name url,
      get_retry_config node_name url = retryBySpecTable node_name) ∧
    get_retry_config "critical-openai-sync" "" =
      .obj [("enabled", .bool true), ("maxAttempts", .num 3), ("waitBetween", .num 2000)] ∧
    get_retry_config "critical-openai-sync" "" ≠
      .obj [("enabled", .bool true), ("maxAttempts", .num 2), ("waitBetween", .num 3000)] := by
  refine ⟨fun node_name url => rfl, rfl, ?_⟩
  intro h
  rw [show get_retry_config "critical-openai-sync" "" =
    .obj [("enabled", .bool true), ("maxAttempts", .num 3), ("waitBetween", .num 2000)]
    from rfl] at h
  simp at h

/-! ### Claim C3

The claim states that a name containing notification/alert/email and no
critical/important/sync keyword selects the quick-retry branch
{3, 1000}, naming "Send Email" as an instance.  This is false on the
code: "ai" is a substring of "email", so every name containing "email"
matches the AI rule, which is checked first; "Send Email" selects
{2, 3000}.  The amended claim additionally excludes the AI keywords. -/

/-- C3 counterexample: "Send Email" satisfies the claim hypotheses
(contains "email", no critical/important/sync keyword) yet the code
selects the AI branch {2, 3000}, not {3, 1000}. -/
theorem C3_counterexample :
    pyIn "email" (pyLower "Send Email") = true ∧
    (["critical", "important", "sync"].any
      (fun k => pyIn k (pyLower "Send Email"))) = false ∧
    get_retry_config "Send Email" "" =
      .obj [("enabled", .bool true), ("maxAttempts", .num 2), ("waitBetween", .num 3000)] ∧
    get_retry_config "Send Email" "" ≠
      .obj [("enabled", .bool true), ("maxAttempts", .num 3), ("waitBetween", .num 1000)] := by
  refine ⟨rfl, rfl, rfl, ?_⟩
  intro h
  rw [show get_retry_config "Send Email" "" =
    .obj [("enabled", .bool true), ("maxAttempts", .num 2), ("waitBetween", .num 3000)]
    from rfl] at h
  simp at h

/-- C3 amended: a node whose lower-cased name contains notification, alert
or email, none of the critical/important/sync keywords, and none of the AI
keywords (openai, gpt, ai), selects the retry policy {enabled, 3 attempts,
1000ms}. -/
theorem C3_notification_retry (node_name url : String)
    (hmatch : (["notification", "alert", "email"].any
      (fun k => pyIn k (pyLower node_name))) = true)
    (hcrit : (["critical", "important", "sync"].any
      (fun k => pyIn k (pyLower node_name))) = false)
    (hai : (["openai", "gpt", "ai"].any
      (fun k => pyIn k (pyLower node_name))) = false) :
    get_retry_config node_name url =
      .obj [("enabled", .bool true), ("maxAttempts", .num 3), ("waitBetween", .num 1000)] := by
  simp only [get_retry_config, hcrit, hai, hmatch, Bool.false_eq_true, if_false, if_true]

/-- C3 amended, witness: the node "Send Alert" satisfies the amended
hypotheses and selects {3, 1000}. -/
theorem C3_notification_retry_witness :
    get_retry_config "Send Alert" "" =
      .obj [("enabled", .bool true), ("maxAttempts", .num 3), ("waitBetween", .num 1000)] :=
  C3_notification_retry "Send Alert" "" rfl rfl rfl

/-! ### Claim C5 -/

/-- C5: the header merge adds the four defaults only for absent keys and
never overwrites an existing value: every key already present keeps its
caller-supplied value, and each of the four default keys ends up mapped to
the caller value when present and the default otherwise. -/
theorem C5_header_merge_no_overwrite (kvs : List (String × JVal)) (u : JVal)
    (k : String) (v : JVal) (hk : jLookup k kvs = some v) :
    ∃ out, get_enhanced_headers (.obj kvs) u = .ok (.obj out) ∧
      jLookup k out = some v ∧
      ∀ p ∈ headerDefaults, jLookup p.1 out = some ((jLookup p.1 kvs).getD p.2) :=
  ⟨mergeHeaderDefaults kvs, get_enhanced_headers_obj kvs u,
    mergeHeaderDefaults_preserves kvs k v hk, mergeHeaderDefaults_spec kvs⟩

/-- C5 witness: with existing headers mapping User-Agent to "custom", the
merge keeps "custom" and adds the Content-Type/Accept/Connection
defaults. -/
theorem C5_header_merge_no_overwrite_witness :
    ∃ out, get_enhanced_headers (.obj [("User-Agent", .str "custom")]) .null = .ok (.obj out) ∧
      jLookup "User-Agent" out = some (.str "custom") ∧
      ∀ p ∈ headerDefaults,
        jLookup p.1 out = some ((jLookup p.1 [("User-Agent", JVal.str "custom")]).getD p.2) :=
  C5_header_merge_no_overwrite [("User-Agent", .str "custom")] .null "User-Agent"
    (.str "custom") rfl

/-! ### Claim C9 -/

/-- C9: a node record whose type tag is not the HTTP-call type is left
byte-for-byte unmodified and reported not applicable (`false`). -/
theorem C9_non_http_untouched (kvs : List (String × JVal))
    (h : typeIsHttp (.obj kvs) = false) :
    enhance_http_node (.obj kvs) = .ok (false, .obj kvs) :=
  enhance_not_http kvs h

/-- C9 witness: a code-type node passes through unmodified. -/
theorem C9_non_http_untouched_witness :
    enhance_http_node (.obj [("type", .str "n8n-nodes-base.code"), ("name", .str "Some Node")]) =
      .ok (false, .obj [("type", .str "n8n-nodes-base.code"), ("name", .str "Some Node")]) :=
  C9_non_http_untouched [("type", .str "n8n-nodes-base.code"), ("name", .str "Some Node")] rfl

/-! ### Claim C10 -/

/-- C10: enhancing an HTTP-call node changes at most the `parameters` and
`onError` entries: every other top-level key of the node record keeps its
original value. -/
theorem C10_frame_effect (kvs : List (String × JVal)) (n' : JVal)
    (h : enhance_http_node (.obj kvs) = .ok (true, n'))
    (k : String) (hk1 : k ≠ "parameters") (hk2 : k ≠ "onError") :
    nodeLookup n' k = jLookup k kvs := by
  obtain ⟨kvs0, pkvs, nameS, urlS, okvs, hdrs, hobj, _, _, _, _, _, _, hn'⟩ :=
    enhance_ok_true_elim h
  have hkv : kvs0 = kvs := (JVal.obj.inj hobj).symm
  subst hkv hn'
  simp only [enhancedNode, nodeLookup]
  rw [jLookup_jSet_ne _ _ _ _ hk2, jLookup_jSet_ne _ _ _ _ hk1]

/-! ### Sample values used by concrete witnesses and counterexamples -/

/-- A representative HTTP Request node record. -/
def sampleHttpNodeKvs : List (String × JVal) :=
  [("id", .str "n1"),
   ("name", .str "Fetch Data"),
   ("type", .str "n8n-nodes-base.httpRequest"),
   ("typeVersion", .num 3),
   ("position", .arr [.num 100, .num 200]),
   ("parameters", .obj [("url", .str "https://example.com/api")])]

/-- The representative node as a JSON value. -/
def sampleHttpNode : JVal := .obj sampleHttpNodeKvs

/-- The value `enhance_http_node` produces on `sampleHttpNode`. -/
def sampleEnhancedNode : JVal :=
  .obj [("id", .str "n1"),
        ("name", .str "Fetch Data"),
        ("type", .str "n8n-nodes-base.httpRequest"),
        ("typeVersion", .num 3),
        ("position", .arr [.num 100, .num 200]),
        ("parameters",
         .obj [("url", .str "https://example.com/api"),
               ("headers",
                .obj [("User-Agent", .str "n8n-workflow/1.0"),
                      ("Content-Type", .str "application/json"),
                      ("Accept", .str "application/json, text/plain, */*"),
                      ("Connection", .str "keep-alive")]),
               ("options",
                .obj [("timeout", .num 15000),
                      ("retry", .obj [("enabled", .bool true),
                                      ("maxAttempts", .num 3),
                                      ("waitBetween", .num 1500)]),
                      ("response", .obj [("response", .obj [("neverError", .bool false)])]),
                      ("redirect", .obj [("followRedirects", .bool true),
                                         ("maxRedirects", .num 3)])])]),
        ("onError", .str "continueRegularOutput")]

/-- C10 witness: on the representative node the `id` entry is unchanged by
enhancement. -/
theorem C10_frame_effect_witness :
    nodeLookup sampleEnhancedNode "id" = jLookup "id" sampleHttpNodeKvs :=
  C10_frame_effect sampleHttpNodeKvs sampleEnhancedNode rfl "id"
    (by decide) (by decide)

/-! ### Claim C4

The claim asserts that after enhancement the options mapping has non-null
timeout/retry/response/redirect entries with `response.neverError = false`
and `redirect = {followRedirects: true, maxRedirects: 3}`, the header
mapping has the four default keys unless caller values are present, and
`onError` is set.  The code assigns the nested value
`.obj [("response", .obj [("neverError", .bool false)])]` to the response
entry of the options, so the `neverError` flag sits one
level deeper, under an inner `response` key; the claim as stated is false
and the amended claim records the nested shape. -/

/-- The retry configuration is never the null value. -/
theorem get_retry_config_ne_null (n u : String) : get_retry_config n u ≠ .null := by
  simp only [get_retry_config]
  split_ifs <;> exact fun hc => JVal.noConfusion hc

/-- C4 counterexample: on a representative node the enhancement succeeds,
yet the `response` entry of the options does not map `neverError` directly
(the claimed path is absent); the flag sits under a second `response`
key. -/
theorem C4_counterexample :
    enhance_http_node sampleHttpNode = .ok (true, sampleEnhancedNode) ∧
    getPath sampleEnhancedNode ["parameters", "options", "response", "neverError"] = none ∧
    getPath sampleEnhancedNode
      ["parameters", "options", "response", "response", "neverError"] = some (.bool false) :=
  ⟨rfl, rfl, rfl⟩

/-- C4 amended: after a successful enhancement of an HTTP-call node whose
parameters and headers entries are mappings (or absent), the options
mapping holds non-null timeout, retry, response and redirect entries, the
response entry is the nested `{response: {neverError: false}}` object, the
redirect entry is `{followRedirects: true, maxRedirects: 3}`, each of the
four default header keys is present with the caller value when one existed
and the default otherwise, and the error behavior is set to continue on
error. -/
theorem C4_enhanced_invariants (kvs pkvs hk : List (String × JVal)) (node' : JVal)
    (hp : (jLookup "parameters" kvs).getD (.obj []) = .obj pkvs)
    (hh : (jLookup "headers" pkvs).getD (.obj []) = .obj hk)
    (hok : enhance_http_node (.obj kvs) = .ok (true, node')) :
    ∃ okvs hkvs,
      getPath node' ["parameters", "options"] = some (.obj okvs) ∧
      getPath node' ["parameters", "headers"] = some (.obj hkvs) ∧
      (∃ t, jLookup "timeout" okvs = some t ∧ t ≠ JVal.null) ∧
      (∃ r, jLookup "retry" okvs = some r ∧ r ≠ JVal.null) ∧
      jLookup "response" okvs = some responseConfig ∧
      jLookup "redirect" okvs = some redirectConfig ∧
      getPath node' ["parameters", "options", "response", "response", "neverError"]
        = some (.bool false) ∧
      (∀ p ∈ headerDefaults, jLookup p.1 hkvs = some ((jLookup p.1 hk).getD p.2)) ∧
      nodeLookup node' "onError" = some (.str "continueRegularOutput") := by
  obtain ⟨kvs0, pkvs0, nameS, urlS, okvs, hdrs, hobj, ht, hp0, hn0, hu0, ho0, hh0, hn'⟩ :=
    enhance_ok_true_elim hok
  have hkv : kvs = kvs0 := JVal.obj.inj hobj
  subst hkv
  have hpk : pkvs = pkvs0 := by
    rw [hp] at hp0
    exact JVal.obj.inj hp0
  subst hpk
  subst hn'
  -- the headers value written by the run is the merged dict
  have hhdrs : hdrs = .obj (mergeHeaderDefaults hk) := by
    rw [hh, get_enhanced_headers_obj] at hh0
    exact (Except.ok.inj hh0).symm
  subst hhdrs
  -- lookups into the written node
  have hparams : nodeLookup (enhancedNode kvs pkvs nameS urlS okvs
      (.obj (mergeHeaderDefaults hk))) "parameters"
      = some (.obj (enhancedParams pkvs (.obj (mergeHeaderDefaults hk)) nameS urlS okvs)) := by
    simp only [enhancedNode, nodeLookup]
    rw [jLookup_jSet_ne _ _ _ _ (by decide), jLookup_jSet_self]
  have hopts : jLookup "options"
      (enhancedParams pkvs (.obj (mergeHeaderDefaults hk)) nameS urlS okvs)
      = some (.obj (enhancedOptions okvs nameS urlS)) := by
    unfold enhancedParams
    rw [jLookup_jSet_self]
  have hhdrl : jLookup "headers"
      (enhancedParams pkvs (.obj (mergeHeaderDefaults hk)) nameS urlS okvs)
      = some (.obj (mergeHeaderDefaults hk)) := by
    unfold enhancedParams
    rw [jLookup_jSet_ne _ _ _ _ (by decide), jLookup_jSet_self]
  refine ⟨enhancedOptions okvs nameS urlS, mergeHeaderDefaults hk, ?_, ?_, ?_, ?_, ?_, ?_, ?_,
    mergeHeaderDefaults_spec hk, ?_⟩
  · simp only [getPath, List.foldl, Option.bind]
    rw [hparams]
    simpa using hopts
  · simp only [getPath, List.foldl, Option.bind]
    rw [hparams]
    simpa using hhdrl
  · refine ⟨.num (get_timeout_config nameS urlS), ?_, fun hc => JVal.noConfusion hc⟩
    unfold enhancedOptions
    rw [jLookup_jSet_ne _ _ _ _ (by decide), jLookup_jSet_ne _ _ _ _ (by decide),
      jLookup_jSet_ne _ _ _ _ (by decide), jLookup_jSet_self]
  · refine ⟨get_retry_config nameS urlS, ?_, get_retry_config_ne_null nameS urlS⟩
    unfold enhancedOptions
    rw [jLookup_jSet_ne _ _ _ _ (by decide), jLookup_jSet_ne _ _ _ _ (by decide),
      jLookup_jSet_self]
  · unfold enhancedOptions
    rw [jLookup_jSet_ne _ _ _ _ (by decide), jLookup_jSet_self]
  · unfold enhancedOptions
    rw [jLookup_jSet_self]
  · simp only [getPath, List.foldl, Option.bind]
    rw [hparams]
    simp only [nodeLookup]
    rw [hopts]
    simp only [nodeLookup]
    have hresp : jLookup "response" (enhancedOptions okvs nameS urlS) = some responseConfig := by
      unfold enhancedOptions
      rw [jLookup_jSet_ne _ _ _ _ (by decide), jLookup_jSet_self]
    rw [hresp]
    rfl
  · simp only [enhancedNode, nodeLookup]
    rw [jLookup_jSet_self]

/-- C4 witness: the invariants instantiated on the representative node. -/
theorem C4_enhanced_invariants_witness :
    ∃ okvs hkvs,
      getPath sampleEnhancedNode ["parameters", "options"] = some (.obj okvs) ∧
      getPath sampleEnhancedNode ["parameters", "headers"] = some (.obj hkvs) ∧
      (∃ t, jLookup "timeout" okvs = some t ∧ t ≠ JVal.null) ∧
      (∃ r, jLookup "retry" okvs = some r ∧ r ≠ JVal.null) ∧
      jLookup "response" okvs = some responseConfig ∧
      jLookup "redirect" okvs = some redirectConfig ∧
      getPath sampleEnhancedNode ["parameters", "options", "response", "response", "neverError"]
        = some (.bool false) ∧
      (∀ p ∈ headerDefaults, jLookup p.1 hkvs = some ((jLookup p.1 ([] : List (String × JVal))).getD p.2)) ∧
      nodeLookup sampleEnhancedNode "onError" = some (.str "continueRegularOutput") :=
  C4_enhanced_invariants sampleHttpNodeKvs [("url", .str "https://example.com/api")] []
    sampleEnhancedNode rfl rfl rfl

/-! ### Claim C6

The claim asserts the per-node operation never raises, even on malformed
(wrong-typed) parameter sub-mappings.  This is false on the code: a
wrong-typed `parameters` entry (or `headers`/`options` entry, or a
non-string name or truthy non-string url) raises inside the operation (the
exception is only caught one level up, at the `enhance_workflow`
boundary).  Only missing entries are defaulted.  The amended claim:
missing entries are treated as empty/default and well-typed nodes complete
without raising; wrong-typed sub-mappings raise. -/

/-- C6 counterexample: an HTTP node whose `parameters` entry is a string
makes the operation raise (`parameters.get("url", default)` on a str). -/
theorem C6_counterexample :
    ∃ e, enhance_http_node
      (.obj [("type", .str "n8n-nodes-base.httpRequest"), ("parameters", .str "oops")])
      = .error e :=
  ⟨"AttributeError", rfl⟩

/-- C6 amended: on a node record whose parameters entry is a mapping or
absent, whose name is a string or absent, whose url is a string or falsy
or absent, and whose options and headers entries are mappings or absent,
the enhancement completes without raising (missing entries default to
empty). -/
theorem C6_wellformed_no_raise (kvs : List (String × JVal))
    (pkvs : List (String × JVal))
    (hp : (jLookup "parameters" kvs).getD (.obj []) = .obj pkvs)
    (hn : ∃ s, (jLookup "name" kvs).getD (.str "HTTP Request") = .str s)
    (hu : ∃ s, strOrFalsy ((jLookup "url" pkvs).getD (.str "")) = some s)
    (ho : ∃ okvs, (jLookup "options" pkvs).getD (.obj []) = .obj okvs)
    (hh : ∃ hkv, (jLookup "headers" pkvs).getD (.obj []) = .obj hkv) :
    ∃ r, enhance_http_node (.obj kvs) = .ok r := by
  by_cases ht : typeIsHttp (.obj kvs) = true
  · obtain ⟨nameS, hn⟩ := hn
    obtain ⟨urlS, hu⟩ := hu
    obtain ⟨okvs, ho⟩ := ho
    obtain ⟨hkv, hh⟩ := hh
    have hhd : get_enhanced_headers ((jLookup "headers" pkvs).getD (.obj []))
        ((jLookup "url" pkvs).getD (.str ""))
        = .ok (.obj (mergeHeaderDefaults hkv)) := by
      rw [hh, get_enhanced_headers_obj]
    exact ⟨_, enhance_ok_true_intro ht hp hn hu ho hhd⟩
  · exact ⟨(false, .obj kvs), enhance_not_http kvs (by simpa using ht)⟩

/-- C6 amended, witness: a minimal HTTP node with no parameters completes
(all sub-mappings default to empty). -/
theorem C6_wellformed_no_raise_witness :
    ∃ r, enhance_http_node (.obj [("type", .str "n8n-nodes-base.httpRequest")]) = .ok r :=
  C6_wellformed_no_raise [("type", .str "n8n-nodes-base.httpRequest")] []
    rfl ⟨"HTTP Request", rfl⟩ ⟨"", rfl⟩ ⟨[], rfl⟩ ⟨[], rfl⟩

/-! ### Claim C7 -/

/-- C7: enhancement is not idempotent.  A second run on an already-enhanced
document that still contains an HTTP-call node succeeds, appends a second
pair of auxiliary nodes whose ids duplicate the pair appended by the first
run, and therefore does not leave the document unchanged. -/
theorem C7_not_idempotent (doc doc1 : JVal) (c1 a1 : Nat)
    (h1 : enhanceDoc doc = .ok (doc1, c1, a1))
    (hhttp : (nodesOf doc1).any typeIsHttp = true) :
    ∃ doc2 c2,
      enhanceDoc doc1 = .ok (doc2, c2, 2) ∧
      (∃ pre, nodesOf doc1 = pre ++ [error_handler_node, fallback_node]) ∧
      (∃ pre2, nodesOf doc2 =
        pre2 ++ [error_handler_node, fallback_node, error_handler_node, fallback_node]) ∧
      (nodesOf doc2).length = (nodesOf doc1).length + 2 ∧
      2 ≤ countId "global-http-error-handler" (nodesOf doc2) ∧
      2 ≤ countId "fallback-data-provider" (nodesOf doc2) ∧
      doc2 ≠ doc1 := by
  obtain ⟨kvs, ns, ns', hdoc, hn, hns, hdoc1, ha1⟩ := enhanceDoc_elim h1
  -- the nodes of the first-run output
  have hnodes1 : nodesOf doc1 = ns' ++ add_error_handling_nodes ns' := by
    rw [hdoc1]
    simp only [nodesOf]
    rw [jLookup_jSet_self]
  -- the auxiliary nodes are never HTTP nodes, so the HTTP node sits in ns'
  have hauxany : (add_error_handling_nodes ns').any typeIsHttp = false := by
    unfold add_error_handling_nodes
    split
    · simp [aux_not_http.1, aux_not_http.2, List.any_cons]
    · simp
  have hns'any : ns'.any typeIsHttp = true := by
    rw [hnodes1, List.any_append, hauxany] at hhttp
    simpa using hhttp
  -- hence the first run did append the pair
  have hE : add_error_handling_nodes ns' = [error_handler_node, fallback_node] := by
    unfold add_error_handling_nodes
    rw [hns'any]
    rfl
  rw [hE] at hnodes1 hdoc1
  -- the second run enhances every node again
  obtain ⟨ns'', c'', hns2⟩ := enhanceNodes_again hns
  have hall2 : enhanceNodes (ns' ++ [error_handler_node, fallback_node])
      = .ok (ns'' ++ [error_handler_node, fallback_node], c'' + 0) :=
    enhanceNodes_append hns2 enhanceNodes_aux_pair
  obtain ⟨hlen2, hany2⟩ := enhanceNodes_length_any hns2
  have hany2' : (ns'' ++ [error_handler_node, fallback_node]).any typeIsHttp = true := by
    rw [List.any_append, hany2, hns'any]
    rfl
  have hE2 : add_error_handling_nodes (ns'' ++ [error_handler_node, fallback_node])
      = [error_handler_node, fallback_node] := by
    unfold add_error_handling_nodes
    rw [hany2']
    rfl
  -- run 2 evaluated
  have hrun2 : enhanceDoc doc1 = .ok
      (.obj (jSet (jSet kvs "nodes" (.arr (ns' ++ [error_handler_node, fallback_node])))
        "nodes" (.arr ((ns'' ++ [error_handler_node, fallback_node])
          ++ [error_handler_node, fallback_node]))), c'' + 0, 2) := by
    rw [hdoc1]
    simp only [enhanceDoc]
    rw [jLookup_jSet_self]
    simp only [bind, Except.bind]
    rw [hall2]
    dsimp only
    rw [hE2]
    rfl
  refine ⟨_, c'' + 0, hrun2, ⟨ns', hnodes1⟩, ?_, ?_, ?_, ?_, ?_⟩
  · refine ⟨ns'', ?_⟩
    simp only [nodesOf]
    rw [jLookup_jSet_self, List.append_assoc]
    rfl
  · have : nodesOf (JVal.obj (jSet (jSet kvs "nodes"
        (.arr (ns' ++ [error_handler_node, fallback_node]))) "nodes"
        (.arr ((ns'' ++ [error_handler_node, fallback_node])
          ++ [error_handler_node, fallback_node]))))
        = (ns'' ++ [error_handler_node, fallback_node]) ++ [error_handler_node, fallback_node] := by
      simp only [nodesOf]
      rw [jLookup_jSet_self]
    rw [this, hnodes1]
    simp [hlen2]
  · simp only [nodesOf]
    rw [jLookup_jSet_self]
    simp only [countId, List.countP_append]
    have h1c : List.countP (fun n => hasId n "global-http-error-handler")
        [error_handler_node, fallback_node] = 1 := rfl
    omega
  · simp only [nodesOf]
    rw [jLookup_jSet_self]
    simp only [countId, List.countP_append]
    have h1c : List.countP (fun n => hasId n "fallback-data-provider")
        [error_handler_node, fallback_node] = 1 := rfl
    omega
  · intro hcontra
    have hlens : ((ns'' ++ [error_handler_node, fallback_node])
        ++ [error_handler_node, fallback_node]).length
        = (ns' ++ [error_handler_node, fallback_node]).length := by
      have hn2 : nodesOf (JVal.obj (jSet (jSet kvs "nodes"
          (.arr (ns' ++ [error_handler_node, fallback_node]))) "nodes"
          (.arr ((ns'' ++ [error_handler_node, fallback_node])
            ++ [error_handler_node, fallback_node]))))
          = (ns'' ++ [error_handler_node, fallback_node]) ++ [error_handler_node, fallback_node] := by
        simp only [nodesOf]
        rw [jLookup_jSet_self]
      have := congrArg nodesOf hcontra
      rw [hn2, hnodes1] at this
      exact congrArg List.length this
    simp [hlen2] at hlens

/-- A one-node workflow document around the representative HTTP node. -/
def sampleDoc : JVal := .obj [("name", .str "wf"), ("nodes", .arr [sampleHttpNode])]

/-- C7 witness: enhancing the representative document once and then again
exhibits the duplicated auxiliary pair. -/
theorem C7_not_idempotent_witness :
    ∃ doc1 c1 a1,
      enhanceDoc sampleDoc = .ok (doc1, c1, a1) ∧
      (nodesOf doc1).any typeIsHttp = true ∧
      ∃ doc2 c2,
        enhanceDoc doc1 = .ok (doc2, c2, 2) ∧
        (∃ pre, nodesOf doc1 = pre ++ [error_handler_node, fallback_node]) ∧
        (∃ pre2, nodesOf doc2 =
          pre2 ++ [error_handler_node, fallback_node, error_handler_node, fallback_node]) ∧
        (nodesOf doc2).length = (nodesOf doc1).length + 2 ∧
        2 ≤ countId "global-http-error-handler" (nodesOf doc2) ∧
        2 ≤ countId "fallback-data-provider" (nodesOf doc2) ∧
        doc2 ≠ doc1 :=
  ⟨_, _, _, rfl, rfl, C7_not_idempotent sampleDoc _ _ _ rfl rfl⟩

/-! ### Claim C8 -/

/-- C8: every failure while loading, parsing, enhancing or persisting a
workflow file is caught at the `enhance_workflow` boundary and becomes a
degenerate summary carrying the file name and the failure message, and the
batch driver still produces one summary per input file. -/
theorem C8_error_boundary
    (files : List (String × Except String JVal × (JVal → Except String Unit)))
    (f : String) (load : Except String JVal)
    (persist : JVal → Except String Unit) (e : String)
    (hmem : (f, load, persist) ∈ files)
    (hfail : enhance_workflow_body load persist = .error e) :
    enhance_workflow f load persist = .degenerate f e ∧
    Summary.degenerate f e ∈ enhance_all_workflows files ∧
    (enhance_all_workflows files).length = files.length := by
  have h1 : enhance_workflow f load persist = .degenerate f e := by
    simp only [enhance_workflow]
    rw [hfail]
  refine ⟨h1, ?_, by simp [enhance_all_workflows]⟩
  have hm := List.mem_map_of_mem (fun p => enhance_workflow p.1 p.2.1 p.2.2) hmem
  simpa [enhance_all_workflows, h1] using hm

/-- A batch with one unparsable file and one file whose load and
transformation succeed but whose write-back fails. -/
def sampleBatch : List (String × Except String JVal × (JVal → Except String Unit)) :=
  [("broken.json", .error "Expecting value: line 1 column 1", fun _ => .ok ()),
   ("wf.json", .ok sampleDoc, fun _ => .error "read-only file system")]

/-- C8 witness: on the second file of the batch the load and in-memory
transformation succeed and the persist step fails; the failure is caught
into a degenerate summary with the file name and message, and the batch
still yields one summary per file. -/
theorem C8_error_boundary_witness :
    (∃ r, enhanceDoc sampleDoc = Except.ok r) ∧
    enhance_workflow "wf.json" (.ok sampleDoc) (fun _ => .error "read-only file system")
      = .degenerate "wf.json" "read-only file system" ∧
    Summary.degenerate "wf.json" "read-only file system" ∈ enhance_all_workflows sampleBatch ∧
    (enhance_all_workflows sampleBatch).length = sampleBatch.length := by
  refine ⟨⟨_, rfl⟩, ?_⟩
  exact C8_error_boundary sampleBatch "wf.json" (.ok sampleDoc)
    (fun _ => .error "read-only file system") "read-only file system"
    (List.Mem.tail _ (List.Mem.head _)) rfl

end EnhanceWorkflows
